import Mathlib

/-!
Verification of the balena-sdk application-model and os-model layer.

This file shallowly embeds the identifier-resolution, application CRUD,
release-tracking and OS version-resolution logic of the repository
(src/unnamed/part_000 — the TypeScript application model,
src/unnamed/part_001 — the older compiled application model, and
src/build/models/os.js — the compiled os model).

The remote OData store ("pine") is modelled as an in-memory database and
every operation is a pure function from that database to a result together
with the list of requests it issues, so that fail-fast / frame properties
("no POST was issued", "the pinned-release field was left out of the patch
body") are directly statable.
-/

namespace BalenaSdk

/-- A user-supplied application reference: a numeric id or a name/slug
string (`nameOrSlugOrId : string | number` in the source).  The source's
`isId` helper (from `../util`, not included in the sources) distinguishes
the numeric case; here the union tag plays that role. -/
inductive AppRef
  | byId (n : Nat)
  | byStr (s : String)
  deriving Repr, DecidableEq

/-- An organization reference: `organization : number | string` in `create`;
the source selects the `id` or `handle` lookup key with `isId`. -/
inductive OrgRef
  | byId (n : Nat)
  | byHandle (s : String)
  deriving Repr, DecidableEq

/-- The typed error kinds of the `balena-errors` collaborator that the
embedded operations throw.  `invalidApplicationType` stands for the plain
`Error("Invalid application type: ...")` thrown in `create`;
`releaseNotFound` stands for the release model's not-found rejection. -/
inductive BalenaError
  | applicationNotFound (ref : AppRef)
  | ambiguousApplication (ref : AppRef)
  | invalidDeviceType (slug : String)
  | discontinuedDeviceType (slug : String)
  | organizationNotFound (org : OrgRef)
  | invalidApplicationType (slug : String)
  | releaseNotFound (hash : String)
  deriving Repr, DecidableEq

/-- A PATCH body on the `application` resource.  A `none` field is *absent
from the body* (the server leaves it untouched); `some x` sets it to `x`.
`should_be_running__release`'s inner `Option` is the nullable foreign key. -/
structure PatchBody where
  should_track_latest_release : Option Bool := none
  should_be_running__release : Option (Option Nat) := none
  deriving Repr, DecidableEq

/-- One request issued against the transport, as far as the claims need:
the resource read, created or patched. -/
inductive Request
  | getReq (resource : String)
  | postReq (resource : String)
  | patchReq (resource : String) (recId : Nat) (body : PatchBody)
  deriving Repr, DecidableEq

/-- An `application` record (the fields the claims touch). -/
structure AppRecord where
  id : Nat
  app_name : String
  slug : String
  should_track_latest_release : Bool
  should_be_running__release : Option Nat
  deriving Repr, DecidableEq

/-- A `release` record. -/
structure ReleaseRecord where
  id : Nat
  belongs_to__application : Nat
  commit : String
  is_final : Bool
  is_passing_tests : Bool
  is_invalidated : Bool
  status : String
  created_at : Nat
  deriving Repr, DecidableEq

/-- A device-type catalog entry (the manifest returned by the device
model's `getManifestBySlug`): slug and lifecycle state. -/
structure Manifest where
  slug : String
  state : String
  deriving Repr, DecidableEq

/-- A row of the `device_type` resource. -/
structure DeviceTypeRec where
  slug : String
  id : Nat
  deriving Repr, DecidableEq

/-- An `organization` record. -/
structure OrgRecord where
  id : Nat
  handle : String
  deriving Repr, DecidableEq

/-- A row of the `application_type` resource. -/
structure AppTypeRec where
  slug : String
  id : Nat
  deriving Repr, DecidableEq

/-- The remote store the pine collaborator queries, modelled in memory. -/
structure DB where
  applications : List AppRecord
  releases : List ReleaseRecord
  deviceTypeCatalog : List Manifest
  deviceTypes : List DeviceTypeRec
  organizations : List OrgRecord
  applicationTypes : List AppTypeRec
  nextId : Nat
  deriving Repr, DecidableEq

instance {ε α : Type} [DecidableEq ε] [DecidableEq α] : DecidableEq (Except ε α) := fun x y =>
  match x, y with
  | .ok a, .ok b =>
    if h : a = b then isTrue (by rw [h]) else isFalse (by intro he; cases he; exact h rfl)
  | .error a, .error b =>
    if h : a = b then isTrue (by rw [h]) else isFalse (by intro he; cases he; exact h rfl)
  | .ok _, .error _ => isFalse (by intro h; cases h)
  | .error _, .ok _ => isFalse (by intro h; cases h)

/-- Modelled from the spec: the device-type catalog collaborator's
`findBySlug(catalog, slug) → entry|null` (§6 of the spec; the catalog
utility itself is not among the source files). -/
def findBySlug (catalog : List Manifest) (slug : String) : Option Manifest :=
  catalog.find? (fun m => m.slug == slug)

/-- JavaScript's `String.prototype.toLowerCase`, modelled character-wise
(identical to it on the ASCII alphabet slugs are made of). -/
def toLowerJs (s : String) : String :=
  String.mk ((s.data).map Char.toLower)

/-- Does the string contain the character? -/
def hasChar (s : String) (c : Char) : Bool :=
  (s.data).any (fun x => x == c)

namespace Application

/-- Model of `normalizeApplication` (part_000 lines 151-158) rewrites the OS-version
field of every embedded device record.  The embedded `AppRecord` carries no
device list, so on the modelled fields the normalization is the identity. -/
def normalizeApplication (a : AppRecord) : AppRecord := a

/-- The `$or` filter used by the name/slug branch of `get` (part_000 lines
366-371): `app_name` equality against the raw reference, or `slug` equality
against the lowercased reference. -/
def nameOrSlugFilter (s : String) (a : AppRecord) : Bool :=
  a.app_name == s || a.slug == toLowerJs s

/-- The records returned by the filtered lookup that `get` issues for a
non-numeric reference. -/
def matchingApplications (db : DB) (s : String) : List AppRecord :=
  (db.applications).filter (nameOrSlugFilter s)

/-- Model of `get` (part_000 lines 339-386).  A numeric reference is a point lookup
that throws `BalenaApplicationNotFound` on a null response; a string
reference is the filtered lookup: zero matches throw
`BalenaApplicationNotFound(ref)`, more than one throws
`BalenaAmbiguousApplication(ref)`, exactly one is returned (after
`normalizeApplication`). -/
def get (db : DB) (ref : AppRef) : Except BalenaError AppRecord :=
  match ref with
  | .byId n =>
    match (db.applications).find? (fun a => a.id == n) with
    | some a => .ok (normalizeApplication a)
    | none => .error (.applicationNotFound ref)
  | .byStr s =>
    match matchingApplications db s with
    | [] => .error (.applicationNotFound ref)
    | [a] => .ok (normalizeApplication a)
    | _ => .error (.ambiguousApplication ref)

/-- Model of `getId` (part_000 lines 140-149): a reference that is already an id is
returned unchanged (and, as the empty request list records, without any
network call); otherwise the id is obtained through `get` with
`$select: 'id'`, which issues one request on the `application` resource. -/
def getId (db : DB) (ref : AppRef) : Except BalenaError Nat × List Request :=
  match ref with
  | .byId n => (.ok n, [])
  | .byStr _ => ((get db ref).map (fun a => a.id), [.getReq "application"])

/-- JavaScript truthiness of an application reference: `0` and `''` are
falsy, so `create` treats them like an absent `parent`. -/
def refTruthy : AppRef → Bool
  | .byId n => n != 0
  | .byStr s => s != ""

/-- The creation parameters of `create` (part_000 lines 650-662).
`organization` is required (a null value is rejected before any lookup,
a branch the typed embedding cannot reach). -/
structure CreateParams where
  name : String
  applicationType : Option String
  deviceType : String
  parent : Option AppRef
  organization : OrgRef
  deriving Repr, DecidableEq

/-- Model of `applicationTypePromise` (part_000 lines 670-687): absent (or falsy)
`applicationType` skips the lookup entirely; otherwise the
`application_type` resource is read by slug and a null response throws
`Error("Invalid application type: ...")`. -/
def applicationTypeLookup (db : DB) (p : CreateParams) :
    Except BalenaError (Option Nat) × List Request :=
  match p.applicationType with
  | none => (.ok none, [])
  | some slug =>
    if slug == "" then (.ok none, [])
    else
      match (db.applicationTypes).find? (fun t => t.slug == slug) with
      | some t => (.ok (some t.id), [.getReq "application_type"])
      | none => (.error (.invalidApplicationType slug), [.getReq "application_type"])

/-- Model of `parentAppPromise` (part_000 lines 689-691): a truthy `parent` is
resolved through `get` with `$select: ['id']`. -/
def parentLookup (db : DB) (p : CreateParams) :
    Except BalenaError (Option AppRecord) × List Request :=
  match p.parent with
  | none => (.ok none, [])
  | some ref =>
    if refTruthy ref then
      ((get db ref).map some, [.getReq "application"])
    else (.ok none, [])

/-- Model of `deviceTypeIdPromise` (part_000 lines 693-718): the device-type slug is
looked up in the catalog (`getManifestBySlug`); a missing entry throws
`BalenaInvalidDeviceType`, a `DISCONTINUED` lifecycle state throws
`BalenaDiscontinuedDeviceType`, and otherwise the `device_type` resource is
read by the manifest's un-aliased slug to obtain the id. -/
def deviceTypeLookup (db : DB) (p : CreateParams) :
    Except BalenaError Nat × List Request :=
  match findBySlug db.deviceTypeCatalog p.deviceType with
  | none => (.error (.invalidDeviceType p.deviceType), [.getReq "device-type-catalog"])
  | some m =>
    if m.state == "DISCONTINUED" then
      (.error (.discontinuedDeviceType p.deviceType), [.getReq "device-type-catalog"])
    else
      match (db.deviceTypes).find? (fun t => t.slug == m.slug) with
      | some t => (.ok t.id, [.getReq "device-type-catalog", .getReq "device_type"])
      | none =>
        (.error (.invalidDeviceType p.deviceType),
          [.getReq "device-type-catalog", .getReq "device_type"])

/-- Model of `organizationPromise` (part_000 lines 720-735): the `organization`
resource is read by `id` or `handle` (chosen with `isId`); a null response
throws `BalenaOrganizationNotFound`. -/
def organizationLookup (db : DB) (p : CreateParams) :
    Except BalenaError Nat × List Request :=
  let found : Option OrgRecord :=
    match p.organization with
    | .byId n => (db.organizations).find? (fun o => o.id == n)
    | .byHandle h => (db.organizations).find? (fun o => o.handle == h)
  match found with
  | some o => (.ok o.id, [.getReq "organization"])
  | none => (.error (.organizationNotFound p.organization), [.getReq "organization"])

/-- The creation POST body (part_000 lines 748-763): `app_name` and
`is_for__device_type` always, the other keys only when the corresponding
resolved value is truthy. -/
structure CreateBody where
  app_name : String
  is_for__device_type : Nat
  depends_on__application : Option Nat := none
  application_type : Option Nat := none
  organization : Option Nat := none
  deriving Repr, DecidableEq

def mkCreateBody (name : String) (deviceTypeId : Nat) (applicationTypeId : Option Nat)
    (parentApplication : Option AppRecord) (organizationId : Nat) : CreateBody :=
  { app_name := name
    is_for__device_type := deviceTypeId
    depends_on__application := parentApplication.map (fun a => a.id)
    application_type :=
      match applicationTypeId with
      | some t => if t != 0 then some t else none
      | none => none
    organization := if organizationId != 0 then some organizationId else none }

/-- The server's response to the creation POST, abstracted: a fresh record
whose server-assigned fields (slug, tracking defaults) the claims never
inspect. -/
def serverCreate (db : DB) (body : CreateBody) : AppRecord :=
  { id := db.nextId
    app_name := body.app_name
    slug := ""
    should_track_latest_release := true
    should_be_running__release := none }

/-- Model of `create` (part_000 lines 650-769).  The four lookups are all started
(so every lookup's requests appear in the trace even when a sibling fails —
fail-fast cancellation is not propagated), then joined as `Promise.all`
does; the settlement order of simultaneous failures is modelled as the
array order `[deviceType, applicationType, parent, organization]`.  Only
when all four succeed is the single POST on `application` issued. -/
def create (db : DB) (p : CreateParams) : Except BalenaError AppRecord × List Request :=
  let dt := deviceTypeLookup db p
  let appTy := applicationTypeLookup db p
  let pa := parentLookup db p
  let org := organizationLookup db p
  let trace := dt.2 ++ appTy.2 ++ pa.2 ++ org.2
  match dt.1, appTy.1, pa.1, org.1 with
  | .ok deviceTypeId, .ok applicationTypeId, .ok parentApplication, .ok organizationId =>
    let body := mkCreateBody p.name deviceTypeId applicationTypeId parentApplication organizationId
    (.ok (serverCreate db body), trace ++ [.postReq "application"])
  | .error e, _, _, _ => (.error e, trace)
  | _, .error e, _, _ => (.error e, trace)
  | _, _, .error e, _ => (.error e, trace)
  | _, _, _, .error e => (.error e, trace)

/-- The errors of the failed lookups among the four, in array order. -/
def errList {α : Type} (r : Except BalenaError α) : List BalenaError :=
  match r with
  | .error e => [e]
  | .ok _ => []

def lookupErrors (db : DB) (p : CreateParams) : List BalenaError :=
  errList (deviceTypeLookup db p).1 ++ errList (applicationTypeLookup db p).1 ++
    errList (parentLookup db p).1 ++ errList (organizationLookup db p).1

/-- No creation request on the `application` resource appears in a trace. -/
def NoAppPost (t : List Request) : Prop :=
  ∀ r ∈ t, r ≠ .postReq "application"

/-- Applying a PATCH body to a record: absent fields are left untouched. -/
def applyBody (body : PatchBody) (a : AppRecord) : AppRecord :=
  { a with
    should_track_latest_release :=
      body.should_track_latest_release.getD a.should_track_latest_release
    should_be_running__release :=
      body.should_be_running__release.getD a.should_be_running__release }

def patchFn (appId : Nat) (body : PatchBody) (a : AppRecord) : AppRecord :=
  if a.id == appId then applyBody body a else a

/-- The effect on the store of `pine.patch({resource: 'application', id, body})`. -/
def patchDB (db : DB) (appId : Nat) (body : PatchBody) : DB :=
  { db with applications := (db.applications).map (patchFn appId body) }

/-- The `$filter` of the `owns__release` expansion used by
`isTrackingLatestRelease` and `trackLatestRelease` (part_000 lines
1169-1179 and 1322-1334): final, passing tests, not invalidated, success. -/
def qualifying (appId : Nat) (r : ReleaseRecord) : Bool :=
  r.belongs_to__application == appId && r.is_final && r.is_passing_tests &&
    !r.is_invalidated && r.status == "success"

/-- The `$top 1, $orderby created_at desc` result of that expansion: the
qualifying release with the greatest `created_at` (first one on ties). -/
def latestQualifying (db : DB) (appId : Nat) : Option ReleaseRecord :=
  ((db.releases).filter (qualifying appId)).foldl
    (fun acc r =>
      match acc with
      | none => some r
      | some b => if b.created_at < r.created_at then some r else acc)
    none

/-- Model of `isTrackingLatestRelease` (part_000 lines 1162-1193): true iff the
tracking flag is set and (no qualifying latest release exists, or the
pinned release is that latest release). -/
def isTrackingLatestRelease (db : DB) (ref : AppRef) : Except BalenaError Bool :=
  match get db ref with
  | .error e => .error e
  | .ok app =>
    let trackedRelease : Option Nat := app.should_be_running__release
    let latestRelease := latestQualifying db app.id
    .ok (app.should_track_latest_release &&
      (latestRelease.isNone || trackedRelease == latestRelease.map (fun r => r.id)))

/-- Modelled from the spec: the release model's `get` as `pinToRelease`
invokes it (the release model is not among the source files) — "resolves
the release by its full hash scoped to the target application and a
success status filter" (§4.2), with `$top 1`; no match rejects. -/
def releaseGetForPin (db : DB) (hash : String) (appId : Nat) :
    Except BalenaError ReleaseRecord :=
  match ((db.releases).filter
      (fun r => r.commit == hash && r.belongs_to__application == appId &&
        r.status == "success")).head? with
  | some r => .ok r
  | none => .error (.releaseNotFound hash)

/-- The PATCH body of `pinToRelease` (part_000 lines 1238-1245): both the
pinned-release reference and the tracking flag, in one request. -/
def pinBody (releaseId : Nat) : PatchBody :=
  { should_be_running__release := some (some releaseId)
    should_track_latest_release := some false }

/-- Model of `pinToRelease` (part_000 lines 1225-1246). -/
def pinToRelease (db : DB) (ref : AppRef) (hash : String) :
    Except BalenaError DB × List Request :=
  let gid := getId db ref
  match gid.1 with
  | .error e => (.error e, gid.2)
  | .ok appId =>
    match releaseGetForPin db hash appId with
    | .error e => (.error e, gid.2 ++ [.getReq "release"])
    | .ok rel =>
      (.ok (patchDB db appId (pinBody rel.id)),
        gid.2 ++ [.getReq "release", .patchReq "application" appId (pinBody rel.id)])

/-- The PATCH body of `trackLatestRelease` (part_000 lines 1341-1347): the
tracking flag is always set; the pinned-release reference is added to the
body only when a qualifying latest release exists. -/
def trackBody (latestRelease : Option ReleaseRecord) : PatchBody :=
  { should_track_latest_release := some true
    should_be_running__release := latestRelease.map (fun r => some r.id) }

/-- Model of `trackLatestRelease` (part_000 lines 1317-1353). -/
def trackLatestRelease (db : DB) (ref : AppRef) :
    Except BalenaError DB × List Request :=
  match get db ref with
  | .error e => (.error e, [.getReq "application"])
  | .ok app =>
    let body := trackBody (latestQualifying db app.id)
    (.ok (patchDB db app.id body),
      [.getReq "application", .patchReq "application" app.id body])

end Application

namespace Os

/-! ### The semver collaborator

`os.js` delegates version comparison, pre-release detection and range
satisfaction to the `resin-semver` collaborator.  The definitions below
model the standard semver semantics that collaborator provides: parsing of
`major.minor.patch[-prerelease][+build]`, precedence comparison (build
metadata ignored; a release outranks any pre-release of the same triple;
pre-release identifier lists compared left to right, numeric before
alphanumeric, missing identifiers lower), exact and caret ranges, and
`maxSatisfying` over a list of version strings. -/

/-- Split a character list on a separator (the character-level counterpart
of JavaScript's `String.prototype.split`). -/
def splitOnChar (sep : Char) : List Char → List (List Char)
  | [] => [[]]
  | c :: cs =>
    let r := splitOnChar sep cs
    if c == sep then [] :: r
    else
      match r with
      | h :: t => (c :: h) :: t
      | [] => [[c]]

/-- Rejoin split pieces with a separator. -/
def joinWith (sep : Char) : List (List Char) → List Char
  | [] => []
  | [x] => x
  | x :: xs => x ++ sep :: joinWith sep xs

/-- A non-empty all-digit character list read as a number. -/
def digitsToNat? (cs : List Char) : Option Nat :=
  if cs.isEmpty then none
  else if cs.all Char.isDigit then
    some (cs.foldl (fun n c => n * 10 + (c.toNat - 48)) 0)
  else none

/-- A parsed semantic version (build metadata dropped: it never affects
precedence). -/
structure Semver where
  major : Nat
  minor : Nat
  patch : Nat
  prerelease : List String
  deriving Repr, DecidableEq

def parseSemver (s : String) : Option Semver :=
  let cs := match s.data with
    | 'v' :: rest => rest
    | l => l
  let noBuild := (splitOnChar '+' cs).headD []
  match splitOnChar '-' noBuild with
  | core :: rest =>
    match splitOnChar '.' core with
    | [ma, mi, pa] =>
      match digitsToNat? ma, digitsToNat? mi, digitsToNat? pa with
      | some a, some b, some c =>
        let pre : List String :=
          if rest.isEmpty then []
          else (splitOnChar '.' (joinWith '-' rest)).map String.mk
        some { major := a, minor := b, patch := c, prerelease := pre }
      | _, _, _ => none
    | _ => none
  | [] => none

/-- Key of one pre-release identifier: numeric identifiers sort below
alphanumeric ones, numerics numerically, alphanumerics in ASCII order. -/
def preIdKey (s : String) : List Nat :=
  match digitsToNat? s.data with
  | some n => [0, n]
  | none => 1 :: (s.data).map Char.toNat

/-- Key of a parsed version, ordered by lexicographic comparison of `List
Nat` so that key order coincides with semver precedence: the triple, then a
release flag (a release outranks every pre-release of the same triple),
then the flattened pre-release identifiers. -/
def svKey (v : Semver) : List Nat :=
  [v.major, v.minor, v.patch, if v.prerelease.isEmpty then 1 else 0] ++
    ((v.prerelease).map preIdKey).flatten

/-- Key of a version string; unparsable strings sort lowest. -/
def verKey (s : String) : List Nat :=
  match parseSemver s with
  | some v => svKey v
  | none => []

/-- Lexicographic order on keys. -/
def keyLE : List Nat → List Nat → Bool
  | [], _ => true
  | _ :: _, [] => false
  | a :: as, b :: bs => decide (a < b) || (a == b && keyLE as bs)

def keyLT (x y : List Nat) : Bool := keyLE x y && !keyLE y x

/-- Relation: `a` has semver precedence at least that of `b`: the descending order
`semver.rcompare` sorts by. -/
def verGE (a b : String) : Prop := keyLE (verKey b) (verKey a) = true

instance : DecidableRel verGE := fun a b => by
  unfold verGE; infer_instance

/-- Model of `semver.prerelease(version)` is truthy: the version parses and carries
pre-release identifiers. -/
def isPrerelease (s : String) : Bool :=
  match parseSemver s with
  | some v => !v.prerelease.isEmpty
  | none => false

/-- Does `pat` occur as a contiguous substring? -/
def hasSubstr (pat : List Char) : List Char → Bool
  | [] => pat.isEmpty
  | c :: cs => pat.isPrefixOf (c :: cs) || hasSubstr pat cs

/-- Modelled from the spec: `isDevelopmentVersion` (from `../util`, not
among the source files) recognizes "development"-tagged versions — a `dev`
tag introduced by `.`, `+` or `-`. -/
def isDevelopmentVersion (v : String) : Bool :=
  hasSubstr ['.', 'd', 'e', 'v'] v.data || hasSubstr ['+', 'd', 'e', 'v'] v.data ||
    hasSubstr ['-', 'd', 'e', 'v'] v.data

def tripleKey (v : Semver) : List Nat := [v.major, v.minor, v.patch]

/-- The exclusive upper bound of a caret range: `^x.y.z` allows no change
to the leftmost non-zero component. -/
def caretUpper (c : Semver) : List Nat :=
  if c.major > 0 then [c.major + 1, 0, 0]
  else if c.minor > 0 then [0, c.minor + 1, 0]
  else [0, 0, c.patch + 1]

/-- The range grammar the claims exercise: an exact version or a caret
range. -/
inductive SRange
  | exact (v : Semver)
  | caret (v : Semver)
  deriving Repr, DecidableEq

def parseRange (r : String) : Option SRange :=
  match r.data with
  | '^' :: rest => (parseSemver (String.mk rest)).map SRange.caret
  | _ => (parseSemver r).map SRange.exact

/-- Model of `semver.satisfies`.  Standard pre-release rule: a pre-release version
only satisfies a caret range whose base comparator is a pre-release of the
same triple. -/
def satisfiesRange (v : String) (range : String) : Bool :=
  match parseSemver v, parseRange range with
  | some sv, some (.exact e) => svKey sv == svKey e
  | some sv, some (.caret c) =>
    (sv.prerelease.isEmpty || (tripleKey sv == tripleKey c && !c.prerelease.isEmpty)) &&
      keyLE (svKey c) (svKey sv) && keyLT (tripleKey sv) (caretUpper c)
  | _, _ => false

/-- Model of `semver.maxSatisfying(versions, range)` over a list of version
strings: the satisfying version of greatest precedence, `none` when no
element satisfies the range. -/
def maxSatisfying (versions : List String) (range : String) : Option String :=
  versions.foldl
    (fun acc v =>
      if satisfiesRange v range then
        match acc with
        | none => some v
        | some m => if keyLT (verKey m) (verKey v) then some v else acc
      else acc)
    none

/-! ### The os model (src/build/models/os.js) -/

/-- The body of the version-list response (`{versions, latest}`) that
`getOsVersions`' `postProcess` receives (os.js lines 75-77). -/
structure OsVersionsBody where
  versions : List String
  latest : String
  deriving Repr, DecidableEq

/-- The supported-versions object `postProcess` builds. -/
structure OsVersions where
  versions : List String
  recommended : Option String
  latest : String
  dflt : String
  deriving Repr, DecidableEq

/-- Model of `versions.sort(semver.rcompare)` (os.js line 78): descending semver
precedence. -/
def sortVersionsDesc (l : List String) : List String :=
  l.insertionSort verGE

/-- The `postProcess` of `getOsVersions` (os.js lines 75-89): sort the
version list descending, reject pre-release and development-tagged
versions, take the first survivor as `recommended` (`[0] || null`, so a
falsy empty-string survivor also yields null), pass the body's `latest`
field through, and let `default` fall back from `recommended` to
`latest`. -/
def getOsVersionsPostProcess (body : OsVersionsBody) : OsVersions :=
  let versions := sortVersionsDesc body.versions
  let potentialRecommendedVersions :=
    versions.filter (fun v => !(isPrerelease v || isDevelopmentVersion v))
  let recommended : Option String :=
    match potentialRecommendedVersions.head? with
    | some s => if s == "" then none else some s
    | none => none
  { versions := versions
    recommended := recommended
    latest := body.latest
    dflt := recommended.getD body.latest }

/-- The spec's words for `recommended` (§4.4): the first element of the
sorted list after excluding pre-release and development-tagged versions,
null if none remain. -/
def specRecommended (sorted : List String) : Option String :=
  (sorted.filter (fun v => !(isPrerelease v || isDevelopmentVersion v))).head?

/-- The JavaScript failure `_getMaxSatisfyingVersion` runs into on the
range path. -/
inductive JsError
  | typeError
  deriving Repr, DecidableEq

/-- The argument the source hands to `semver.maxSatisfying`.  The
collaborator's contract takes an *array of version strings* and iterates
it; handing it the supported-versions *object* (which has no array
methods) raises a `TypeError` at runtime. -/
inductive SemverListArg
  | versionList (l : List String)
  | versionsObject (o : OsVersions)

def semverMaxSatisfyingJs : SemverListArg → String → Except JsError (Option String)
  | .versionList l, range => .ok (maxSatisfying l range)
  | .versionsObject _, _ => .error .typeError

/-- Model of `_getMaxSatisfyingVersion` (os.js lines 109-114): the tokens
`'default' | 'latest' | 'recommended'` index the precomputed fields of the
supported-versions object; any other string is handed to
`semver.maxSatisfying` — together with the whole supported-versions
*object* (`semver.maxSatisfying(osVersions, versionOrRange)`), not its
`versions` list. -/
def _getMaxSatisfyingVersion (versionOrRange : String) (osVersions : OsVersions) :
    Except JsError (Option String) :=
  if versionOrRange == "default" then .ok (some osVersions.dflt)
  else if versionOrRange == "latest" then .ok (some osVersions.latest)
  else if versionOrRange == "recommended" then .ok osVersions.recommended
  else semverMaxSatisfyingJs (.versionsObject osVersions) versionOrRange

/-! ### normalizeVersion and the RESINOS version regex -/

/-- Consume one or more digits. -/
def digits1 : List Char → Option (List Char)
  | c :: cs => if c.isDigit then some (cs.dropWhile Char.isDigit) else none
  | [] => none

def charTok (c : Char) : List Char → Option (List Char)
  | x :: cs => if x == c then some cs else none
  | [] => none

/-- Does `\d+\.\d+\.\d+` match at the head of the character list? -/
def coreMatchAt (cs : List Char) : Bool :=
  ((((digits1 cs).bind (charTok '.')).bind digits1 |>.bind (charTok '.')).bind
    digits1).isSome

/-- Model of `RESINOS_VERSION_REGEX.test` (os.js line 36):
`/v?\d+\.\d+\.\d+(\.rev\d+)?((\-|\+).+)?/` is *unanchored*, and both
trailing groups are optional (they can always match empty), so `.test`
holds exactly when `v?\d+\.\d+\.\d+` matches at some position. -/
def resinosTestAux : List Char → Bool
  | [] => false
  | c :: cs => coreMatchAt (c :: cs) || (c == 'v' && coreMatchAt cs) || resinosTestAux cs

def resinosTest (s : String) : Bool := resinosTestAux s.data

/-- Model of `v[0] === 'v' ? v.substring(1) : v` (os.js line 99). -/
def stripLeadingV (v : String) : String :=
  match v.data with
  | 'v' :: rest => String.mk rest
  | _ => v

/-- Model of `normalizeVersion` (os.js lines 91-104): empty input throws, the
literal `'latest'` is returned unchanged, otherwise a single leading `v`
is stripped and the remainder must pass `RESINOS_VERSION_REGEX.test`. -/
def normalizeVersion (v : String) : Except String String :=
  if v == "" then .error ("Invalid version: " ++ v)
  else if v == "latest" then .ok v
  else
    let vNormalized := stripLeadingV v
    if resinosTest vNormalized then .ok vNormalized
    else .error ("Invalid semver version: " ++ v)

/-- The spec's words for the validation pattern (§4.4): the *whole*
remainder is a strict `major.minor.patch[.revN][-suffix or +suffix]` — an
anchored match of the version regex. -/
def strictSuffix : List Char → Bool
  | [] => true
  | c :: cs => (c == '-' || c == '+') && !cs.isEmpty

def strictTail (cs : List Char) : Bool :=
  strictSuffix cs ||
    (match cs with
     | '.' :: 'r' :: 'e' :: 'v' :: rest =>
       match digits1 rest with
       | some rest2 => strictSuffix rest2
       | none => false
     | _ => false)

/-- Anchored match of `\d+\.\d+\.\d+` followed by a strict tail, starting
at the head and consuming the whole list. -/
def strictAt (cs : List Char) : Bool :=
  match (((digits1 cs).bind (charTok '.')).bind digits1 |>.bind (charTok '.')).bind
      digits1 with
  | some rest => strictTail rest
  | none => false

def strictResinos (s : String) : Bool :=
  match s.data with
  | 'v' :: rest => strictAt rest
  | l => strictAt l

end Os

/-! ### Concrete sample stores used by the witnesses -/

def emptyDB : DB :=
  { applications := [], releases := [], deviceTypeCatalog := [], deviceTypes := []
    organizations := [], applicationTypes := [], nextId := 1 }

/-- Two applications sharing the bare name `dup` (owned by different
organizations, hence distinct slugs). -/
def dbTwoDup : DB :=
  { emptyDB with
    applications :=
      [ { id := 1, app_name := "dup", slug := "orga/dup",
          should_track_latest_release := true, should_be_running__release := none }
      , { id := 2, app_name := "dup", slug := "orgb/dup",
          should_track_latest_release := true, should_be_running__release := none } ] }

/-- One application reachable by its slug. -/
def appOwner : AppRecord :=
  { id := 7, app_name := "App", slug := "owner/app",
    should_track_latest_release := true, should_be_running__release := none }

def dbOwner : DB := { emptyDB with applications := [appOwner] }

/-- A store where every `create` lookup succeeds except the organization
one. -/
def dbNoOrg : DB :=
  { emptyDB with
    deviceTypeCatalog := [{ slug := "raspberry-pi", state := "RELEASED" }]
    deviceTypes := [{ slug := "raspberry-pi", id := 11 }] }

def paramsNoOrg : Application.CreateParams :=
  { name := "My App", applicationType := none, deviceType := "raspberry-pi",
    parent := none, organization := .byHandle "ghost" }

/-- A store whose only device type is discontinued. -/
def dbDiscontinued : DB :=
  { emptyDB with
    deviceTypeCatalog := [{ slug := "edison", state := "DISCONTINUED" }]
    deviceTypes := [{ slug := "edison", id := 12 }]
    organizations := [{ id := 3, handle := "acme" }] }

def paramsDiscontinued : Application.CreateParams :=
  { name := "My App", applicationType := none, deviceType := "edison",
    parent := none, organization := .byId 3 }

/-- An application pinnable to the success release `cafe`, which is also
its latest qualifying release. -/
def appPin : AppRecord :=
  { id := 1, app_name := "pinned", slug := "owner/pinned",
    should_track_latest_release := true, should_be_running__release := none }

def relPin : ReleaseRecord :=
  { id := 10, belongs_to__application := 1, commit := "cafe", is_final := true,
    is_passing_tests := true, is_invalidated := false, status := "success",
    created_at := 5 }

def dbPin : DB := { emptyDB with applications := [appPin], releases := [relPin] }

/-- An application with no qualifying release at all. -/
def appTrack : AppRecord :=
  { id := 4, app_name := "tracked", slug := "owner/tracked",
    should_track_latest_release := false, should_be_running__release := some 99 }

def dbTrack : DB := { emptyDB with applications := [appTrack] }

/-- The supported-versions object for the version set
`['1.9.0','2.0.0','2.3.1']`. -/
def osvSample : Os.OsVersions :=
  { versions := ["2.3.1", "2.0.0", "1.9.0"], recommended := some "2.3.1",
    latest := "2.3.1", dflt := "2.3.1" }

/-- The fetched version-list body of the claim's worked example. -/
def osBodySample : Os.OsVersionsBody :=
  { versions := ["2.0.0", "2.1.0-beta", "2.1.0"], latest := "2.1.0" }

/-- The same version list with a server-sent `latest` that differs from the
head of the sorted list. -/
def osBodyOdd : Os.OsVersionsBody :=
  { versions := ["2.0.0", "2.1.0-beta", "2.1.0"], latest := "9.9.9" }

/-! ## Helper lemmas -/

theorem keyLE_trans : ∀ x y z : List Nat,
    Os.keyLE x y = true → Os.keyLE y z = true → Os.keyLE x z = true
  | [], _, _, _, _ => rfl
  | _ :: _, [], _, h1, _ => by simp [Os.keyLE] at h1
  | _ :: _, _ :: _, [], _, h2 => by simp [Os.keyLE] at h2
  | a :: as, b :: bs, c :: cs, h1, h2 => by
    simp only [Os.keyLE, Bool.or_eq_true, Bool.and_eq_true, decide_eq_true_eq,
      beq_iff_eq] at h1 h2 ⊢
    rcases h1 with h1 | ⟨rfl, h1⟩
    · rcases h2 with h2 | ⟨rfl, h2⟩
      · exact Or.inl (h1.trans h2)
      · exact Or.inl h1
    · rcases h2 with h2 | ⟨rfl, h2⟩
      · exact Or.inl h2
      · exact Or.inr ⟨rfl, keyLE_trans as bs cs h1 h2⟩

theorem keyLE_total : ∀ x y : List Nat, Os.keyLE x y = true ∨ Os.keyLE y x = true
  | [], _ => Or.inl rfl
  | _ :: _, [] => Or.inr rfl
  | a :: as, b :: bs => by
    simp only [Os.keyLE, Bool.or_eq_true, Bool.and_eq_true, decide_eq_true_eq,
      beq_iff_eq]
    rcases Nat.lt_trichotomy a b with h | h | h
    · exact Or.inl (Or.inl h)
    · subst h
      rcases keyLE_total as bs with h | h
      · exact Or.inl (Or.inr ⟨rfl, h⟩)
      · exact Or.inr (Or.inr ⟨rfl, h⟩)
    · exact Or.inr (Or.inl h)

theorem patchFn_fields (appId : Nat) (body : PatchBody) (a : AppRecord) :
    (Application.patchFn appId body a).id = a.id ∧
    (Application.patchFn appId body a).app_name = a.app_name ∧
    (Application.patchFn appId body a).slug = a.slug := by
  unfold Application.patchFn Application.applyBody
  split <;> exact ⟨rfl, rfl, rfl⟩

theorem find?_map_patch (l : List AppRecord) (appId : Nat) (body : PatchBody) (n : Nat) :
    ((l.map (Application.patchFn appId body)).find? (fun a => a.id == n)) =
      (l.find? (fun a => a.id == n)).map (Application.patchFn appId body) := by
  induction l with
  | nil => rfl
  | cons a t ih =>
    simp only [List.map_cons, List.find?, (patchFn_fields appId body a).1]
    cases h : a.id == n
    · simpa [h] using ih
    · simp [h]

theorem filter_map_patch (l : List AppRecord) (appId : Nat) (body : PatchBody) (s : String) :
    ((l.map (Application.patchFn appId body)).filter (Application.nameOrSlugFilter s)) =
      (l.filter (Application.nameOrSlugFilter s)).map (Application.patchFn appId body) := by
  induction l with
  | nil => rfl
  | cons a t ih =>
    have hf : Application.nameOrSlugFilter s (Application.patchFn appId body a) =
        Application.nameOrSlugFilter s a := by
      unfold Application.nameOrSlugFilter
      rw [(patchFn_fields appId body a).2.1, (patchFn_fields appId body a).2.2]
    simp only [List.map_cons, List.filter, hf]
    cases Application.nameOrSlugFilter s a
    · simpa using ih
    · simpa using ih

/-! ## Claims -/

/-- Claim **C8**: a reference that is already a valid numeric id is returned by
`getId` unchanged, and the operation issues no request at all. -/
theorem c8_getId_numeric_no_network (db : DB) (n : Nat) :
    Application.getId db (.byId n) = (.ok n, []) := rfl

/-- Claim **C2**: for a non-numeric (bare name) reference, `get` fails with
`ApplicationNotFound` carrying the original reference when the filtered
lookup returns no record, returns the unique record when it returns exactly
one, and fails with `AmbiguousApplication` carrying the original reference
when it returns two or more. -/
theorem c2_get_bare_name_trichotomy (db : DB) (s : String) :
    (Application.matchingApplications db s = [] →
      Application.get db (.byStr s) = .error (.applicationNotFound (.byStr s))) ∧
    (∀ a, Application.matchingApplications db s = [a] →
      Application.get db (.byStr s) = .ok a) ∧
    (2 ≤ (Application.matchingApplications db s).length →
      Application.get db (.byStr s) = .error (.ambiguousApplication (.byStr s))) := by
  refine ⟨fun h => ?_, fun a h => ?_, fun h => ?_⟩
  · simp [Application.get, h]
  · simp [Application.get, h, Application.normalizeApplication]
  · rcases hm : Application.matchingApplications db s with _ | ⟨a, _ | ⟨b, t⟩⟩
    · rw [hm] at h; simp at h
    · rw [hm] at h; simp at h
    · simp [Application.get, hm]

/-- Witness for C2 at a store holding two applications that share the bare
name `dup`. -/
theorem c2_witness :
    2 ≤ (Application.matchingApplications dbTwoDup "dup").length ∧
    Application.get dbTwoDup (.byStr "dup") =
      .error (.ambiguousApplication (.byStr "dup")) :=
  ⟨by decide, (c2_get_bare_name_trichotomy dbTwoDup "dup").2.2 (by decide)⟩

/-- Claim **C10**: for references containing a `/` (owner/app slugs — application
names never contain a slash), resolution by `get` is case-insensitive: two
references that agree after lowercasing resolve to the same record, because
the slug component of the lookup filter is lowercased before comparison. -/
theorem c10_get_slug_case_insensitive (db : DB) (s1 s2 : String)
    (hnames : ∀ a ∈ db.applications, hasChar a.app_name '/' = false)
    (h1 : hasChar s1 '/' = true) (h2 : hasChar s2 '/' = true)
    (hlow : toLowerJs s1 = toLowerJs s2) (a : AppRecord) :
    Application.get db (.byStr s1) = .ok a ↔ Application.get db (.byStr s2) = .ok a := by
  have hfilter : ∀ x ∈ db.applications,
      Application.nameOrSlugFilter s1 x = Application.nameOrSlugFilter s2 x := by
    intro x hx
    have hn1 : (x.app_name == s1) = false := by
      rw [beq_eq_false_iff_ne]
      intro he
      have hc := hnames x hx
      rw [he, h1] at hc
      simp at hc
    have hn2 : (x.app_name == s2) = false := by
      rw [beq_eq_false_iff_ne]
      intro he
      have hc := hnames x hx
      rw [he, h2] at hc
      simp at hc
    unfold Application.nameOrSlugFilter
    rw [hn1, hn2, hlow]
  have hmatch : Application.matchingApplications db s1 =
      Application.matchingApplications db s2 :=
    List.filter_congr hfilter
  rcases hm : Application.matchingApplications db s2 with _ | ⟨x, _ | ⟨y, t⟩⟩ <;>
    simp [Application.get, hmatch, hm, Application.normalizeApplication]

/-- Witness for C10: `Owner/App` and `owner/app` resolve to the same
record. -/
theorem c10_witness :
    (Application.get dbOwner (.byStr "Owner/App") = .ok appOwner) ↔
      Application.get dbOwner (.byStr "owner/app") = .ok appOwner :=
  c10_get_slug_case_insensitive dbOwner "Owner/App" "owner/app"
    (by decide) (by decide) (by decide) (by decide) appOwner

/-- Claim **C5**: a successful `pinToRelease` issues a single patch that sets the
pinned-release reference and clears the tracking flag together, so an
immediately following `isTrackingLatestRelease` on the same application
returns `false` — even when the pinned release equals the latest qualifying
release (the tracking flag alone already falsifies the conjunction the
query computes). -/
theorem c5_pin_then_not_tracking (db : DB) (ref : AppRef) (hash : String)
    (db' : DB) (t : List Request)
    (hpin : Application.pinToRelease db ref hash = (.ok db', t))
    (a : AppRecord) (hget : Application.get db ref = .ok a) :
    Application.isTrackingLatestRelease db' ref = .ok false ∧
    ∃ rid, Request.patchReq "application" a.id (Application.pinBody rid) ∈ t := by
  cases ref with
  | byId n =>
    have han : a.id = n := by
      simp only [Application.get] at hget
      rcases hf : (db.applications).find? (fun x => x.id == n) with _ | a0 <;>
        rw [hf] at hget
      · simp at hget
      · have := List.find?_some hf
        simp only [Application.normalizeApplication, Except.ok.injEq] at hget
        subst hget
        simpa using this
    have hfind : (db.applications).find? (fun x => x.id == n) = some a := by
      simp only [Application.get] at hget
      rcases hf : (db.applications).find? (fun x => x.id == n) with _ | a0 <;>
        rw [hf] at hget
      · simp at hget
      · simp only [Application.normalizeApplication, Except.ok.injEq] at hget
        rw [hf, hget]
    simp only [Application.pinToRelease, Application.getId] at hpin
    rcases hrel : Application.releaseGetForPin db hash n with e | rel <;>
      rw [hrel] at hpin
    · simp at hpin
    · simp only [Prod.mk.injEq, Except.ok.injEq, List.nil_append] at hpin
      obtain ⟨hdb, ht⟩ := hpin
      subst hdb
      subst ht
      constructor
      · simp only [Application.isTrackingLatestRelease, Application.get,
          Application.patchDB]
        rw [find?_map_patch, hfind]
        simp [Application.normalizeApplication, Application.patchFn,
          Application.applyBody, Application.pinBody, han]
      · exact ⟨rel.id, by simp [han]⟩
  | byStr s =>
    have hone : Application.matchingApplications db s = [a] := by
      simp only [Application.get] at hget
      rcases hm : Application.matchingApplications db s with _ | ⟨a0, _ | ⟨b, t2⟩⟩ <;>
        rw [hm] at hget
      · simp at hget
      · simp only [Application.normalizeApplication, Except.ok.injEq] at hget
        rw [hget]
      · simp at hget
    simp only [Application.pinToRelease, Application.getId, hget, Except.map] at hpin
    rcases hrel : Application.releaseGetForPin db hash a.id with e | rel <;>
      rw [hrel] at hpin
    · simp at hpin
    · simp only [Prod.mk.injEq, Except.ok.injEq, List.cons_append,
        List.nil_append] at hpin
      obtain ⟨hdb, ht⟩ := hpin
      subst hdb
      subst ht
      constructor
      · simp only [Application.isTrackingLatestRelease, Application.get,
          Application.matchingApplications, Application.patchDB]
        rw [filter_map_patch]
        have : (db.applications).filter (Application.nameOrSlugFilter s) = [a] := hone
        rw [this]
        simp [Application.normalizeApplication, Application.patchFn,
          Application.applyBody, Application.pinBody]
      · exact ⟨rel.id, by simp⟩

/-- Witness for C5: pinning `appPin` (whose pinned release *is* the latest
qualifying release) still makes `isTrackingLatestRelease` answer false. -/
theorem c5_witness :
    Application.get dbPin (.byId 1) = .ok appPin ∧
    Application.isTrackingLatestRelease
      (Application.patchDB dbPin 1 (Application.pinBody 10)) (.byId 1) = .ok false :=
  ⟨by decide,
    (c5_pin_then_not_tracking dbPin (.byId 1) "cafe"
      (Application.patchDB dbPin 1 (Application.pinBody 10))
      [.getReq "release", .patchReq "application" 1 (Application.pinBody 10)]
      (by decide) appPin (by decide)).1⟩

/-- Claim **C7**: `trackLatestRelease` issues one patch whose body always sets
the tracking flag to true; when no qualifying latest release exists the
pinned-release field is absent from the body, so applying the patch leaves
every record's pinned-release reference unchanged; when one exists the same
single request also sets the pinned-release reference to it. -/
theorem c7_trackLatest_frame (db : DB) (ref : AppRef) (a : AppRecord)
    (hget : Application.get db ref = .ok a) :
    Application.trackLatestRelease db ref =
      (.ok (Application.patchDB db a.id
        (Application.trackBody (Application.latestQualifying db a.id))),
       [.getReq "application",
        .patchReq "application" a.id
          (Application.trackBody (Application.latestQualifying db a.id))]) ∧
    (Application.trackBody
        (Application.latestQualifying db a.id)).should_track_latest_release =
      some true ∧
    (Application.latestQualifying db a.id = none →
      (Application.trackBody
          (Application.latestQualifying db a.id)).should_be_running__release = none ∧
      ∀ x : AppRecord,
        (Application.applyBody
            (Application.trackBody (Application.latestQualifying db a.id))
            x).should_be_running__release = x.should_be_running__release) ∧
    (∀ r, Application.latestQualifying db a.id = some r →
      (Application.trackBody
          (Application.latestQualifying db a.id)).should_be_running__release =
        some (some r.id)) ∧
    ∀ x : AppRecord,
      (Application.applyBody
          (Application.trackBody (Application.latestQualifying db a.id))
          x).should_track_latest_release = true := by
  refine ⟨?_, rfl, fun h => ?_, fun r h => ?_, fun x => ?_⟩
  · simp [Application.trackLatestRelease, hget]
  · rw [h]
    exact ⟨rfl, fun x => by simp [Application.applyBody, Application.trackBody]⟩
  · rw [h]
    rfl
  · simp [Application.applyBody, Application.trackBody]

/-- Witness for C7 at a store with no qualifying release: the patch body
leaves the pinned-release field out and the patched record keeps its old
pinned release. -/
theorem c7_witness :
    Application.latestQualifying dbTrack appTrack.id = none ∧
    (Application.trackBody
        (Application.latestQualifying dbTrack appTrack.id)).should_be_running__release =
      none ∧
    (Application.applyBody
        (Application.trackBody (Application.latestQualifying dbTrack appTrack.id))
        appTrack).should_be_running__release = appTrack.should_be_running__release :=
  ⟨by decide,
    ((c7_trackLatest_frame dbTrack (.byId 4) appTrack (by decide)).2.2.1 (by decide)).1,
    ((c7_trackLatest_frame dbTrack (.byId 4) appTrack (by decide)).2.2.1 (by decide)).2
      appTrack⟩

theorem noAppPost_of_only_gets {t : List Request}
    (h : ∀ r ∈ t, ∃ s, r = Request.getReq s) : Application.NoAppPost t := by
  intro r hr
  obtain ⟨s, rfl⟩ := h r hr
  intro he
  cases he

theorem deviceTypeLookup_only_gets (db : DB) (p : Application.CreateParams) :
    ∀ r ∈ (Application.deviceTypeLookup db p).2, ∃ s, r = Request.getReq s := by
  intro r hr
  unfold Application.deviceTypeLookup at hr
  split at hr
  · simp at hr
    exact ⟨_, hr⟩
  · split at hr
    · simp at hr
      exact ⟨_, hr⟩
    · split at hr <;>
        · simp at hr
          rcases hr with hr | hr <;> exact ⟨_, hr⟩

theorem applicationTypeLookup_only_gets (db : DB) (p : Application.CreateParams) :
    ∀ r ∈ (Application.applicationTypeLookup db p).2, ∃ s, r = Request.getReq s := by
  intro r hr
  unfold Application.applicationTypeLookup at hr
  split at hr
  · simp at hr
  · split at hr
    · simp at hr
    · split at hr <;>
        · simp at hr
          exact ⟨_, hr⟩

theorem parentLookup_only_gets (db : DB) (p : Application.CreateParams) :
    ∀ r ∈ (Application.parentLookup db p).2, ∃ s, r = Request.getReq s := by
  intro r hr
  unfold Application.parentLookup at hr
  split at hr
  · simp at hr
  · split at hr
    · simp at hr
      exact ⟨_, hr⟩
    · simp at hr

theorem organizationLookup_only_gets (db : DB) (p : Application.CreateParams) :
    ∀ r ∈ (Application.organizationLookup db p).2, ∃ s, r = Request.getReq s := by
  intro r hr
  simp only [Application.organizationLookup] at hr
  split at hr <;>
    · simp at hr
      exact ⟨_, hr⟩

theorem lookupTrace_noAppPost (db : DB) (p : Application.CreateParams) :
    Application.NoAppPost
      ((Application.deviceTypeLookup db p).2 ++ (Application.applicationTypeLookup db p).2 ++
        (Application.parentLookup db p).2 ++ (Application.organizationLookup db p).2) := by
  apply noAppPost_of_only_gets
  intro r hr
  simp only [List.mem_append] at hr
  rcases hr with ((hr | hr) | hr) | hr
  · exact deviceTypeLookup_only_gets db p r hr
  · exact applicationTypeLookup_only_gets db p r hr
  · exact parentLookup_only_gets db p r hr
  · exact organizationLookup_only_gets db p r hr

/-- Claim **C1**: if any of the four parallel resolution lookups of `create`
fails, the whole operation rejects with a failing lookup's error and the
request trace contains no creation POST on the `application` resource. -/
theorem c1_create_fail_fast (db : DB) (p : Application.CreateParams)
    (h : (Application.deviceTypeLookup db p).1.isOk = false ∨
      (Application.applicationTypeLookup db p).1.isOk = false ∨
      (Application.parentLookup db p).1.isOk = false ∨
      (Application.organizationLookup db p).1.isOk = false) :
    ∃ e, (Application.create db p).1 = .error e ∧
      e ∈ Application.lookupErrors db p ∧
      Application.NoAppPost (Application.create db p).2 := by
  have hnp := lookupTrace_noAppPost db p
  cases hdt : (Application.deviceTypeLookup db p).1 with
  | error e =>
    refine ⟨e, ?_, ?_, ?_⟩
    · simp [Application.create, hdt]
    · simp [Application.lookupErrors, Application.errList, hdt]
    · simpa [Application.create, hdt] using hnp
  | ok vdt =>
    cases hat : (Application.applicationTypeLookup db p).1 with
    | error e =>
      refine ⟨e, ?_, ?_, ?_⟩
      · simp [Application.create, hdt, hat]
      · simp [Application.lookupErrors, Application.errList, hat]
      · simpa [Application.create, hdt, hat] using hnp
    | ok vat =>
      cases hpa : (Application.parentLookup db p).1 with
      | error e =>
        refine ⟨e, ?_, ?_, ?_⟩
        · simp [Application.create, hdt, hat, hpa]
        · simp [Application.lookupErrors, Application.errList, hpa]
        · simpa [Application.create, hdt, hat, hpa] using hnp
      | ok vpa =>
        cases hor : (Application.organizationLookup db p).1 with
        | error e =>
          refine ⟨e, ?_, ?_, ?_⟩
          · simp [Application.create, hdt, hat, hpa, hor]
          · simp [Application.lookupErrors, Application.errList, hor]
          · simpa [Application.create, hdt, hat, hpa, hor] using hnp
        | ok vor =>
          rw [hdt, hat, hpa, hor] at h
          simp [Except.isOk, Except.toBool] at h

/-- Witness for C1: with every lookup fine except the organization one, the
creation is rejected with that lookup's error and nothing is posted. -/
theorem c1_witness :
    ((Application.deviceTypeLookup dbNoOrg paramsNoOrg).1.isOk = false ∨
      (Application.applicationTypeLookup dbNoOrg paramsNoOrg).1.isOk = false ∨
      (Application.parentLookup dbNoOrg paramsNoOrg).1.isOk = false ∨
      (Application.organizationLookup dbNoOrg paramsNoOrg).1.isOk = false) ∧
    ∃ e, (Application.create dbNoOrg paramsNoOrg).1 = .error e ∧
      e ∈ Application.lookupErrors dbNoOrg paramsNoOrg ∧
      Application.NoAppPost (Application.create dbNoOrg paramsNoOrg).2 :=
  ⟨by decide, c1_create_fail_fast dbNoOrg paramsNoOrg (by decide)⟩

/-- Claim **C6**: when the device-type slug resolves to a catalog entry whose
lifecycle state is `DISCONTINUED`, `create` fails with
`DiscontinuedDeviceType` (carrying the requested slug) before any creation
request is issued. -/
theorem c6_create_discontinued (db : DB) (p : Application.CreateParams)
    (m : Manifest) (hm : findBySlug db.deviceTypeCatalog p.deviceType = some m)
    (hs : m.state = "DISCONTINUED") :
    (Application.create db p).1 = .error (.discontinuedDeviceType p.deviceType) ∧
    Application.NoAppPost (Application.create db p).2 := by
  have hdt : (Application.deviceTypeLookup db p).1 =
      .error (.discontinuedDeviceType p.deviceType) := by
    simp [Application.deviceTypeLookup, hm, hs]
  refine ⟨by simp [Application.create, hdt], ?_⟩
  simpa [Application.create, hdt] using lookupTrace_noAppPost db p

/-- Witness for C6 at a store whose `edison` device type is discontinued. -/
theorem c6_witness :
    findBySlug dbDiscontinued.deviceTypeCatalog paramsDiscontinued.deviceType =
      some { slug := "edison", state := "DISCONTINUED" } ∧
    (Application.create dbDiscontinued paramsDiscontinued).1 =
      .error (.discontinuedDeviceType "edison") ∧
    Application.NoAppPost (Application.create dbDiscontinued paramsDiscontinued).2 :=
  ⟨by decide,
    (c6_create_discontinued dbDiscontinued paramsDiscontinued
      { slug := "edison", state := "DISCONTINUED" } (by decide) rfl).1,
    (c6_create_discontinued dbDiscontinued paramsDiscontinued
      { slug := "edison", state := "DISCONTINUED" } (by decide) rfl).2⟩

/-- Claim **C3** (the code deviates from its own documentation): the tokens
`default`, `latest`, `recommended` do map directly to the precomputed
fields, but every other string is handed to `semver.maxSatisfying`
*together with the whole supported-versions object* instead of its
version list, which fails with a TypeError instead of resolving the
range; resolving over the version list, as the claim and the function's
own jsdoc describe, would return `2.3.1` for `^2.0.0` over
`['1.9.0','2.0.0','2.3.1']` and null over `['1.0.0']`. -/
theorem c3_range_resolution_bug :
    Os._getMaxSatisfyingVersion "default" osvSample = .ok (some "2.3.1") ∧
    Os._getMaxSatisfyingVersion "latest" osvSample = .ok (some "2.3.1") ∧
    Os._getMaxSatisfyingVersion "recommended" osvSample = .ok (some "2.3.1") ∧
    Os._getMaxSatisfyingVersion "^2.0.0" osvSample = .error .typeError ∧
    Os.maxSatisfying osvSample.versions "^2.0.0" = some "2.3.1" ∧
    Os.maxSatisfying ["1.0.0"] "^2.0.0" = none := by
  decide

/-- Counterexample to C4 as stated: `latest` is the `latest` field of the
fetched body passed through unchanged, not the first element of the sorted
version list. -/
theorem c4_counterexample :
    ((Os.getOsVersionsPostProcess osBodyOdd).versions).head? = some "2.1.0" ∧
    (Os.getOsVersionsPostProcess osBodyOdd).latest = "9.9.9" ∧
    (Os.getOsVersionsPostProcess osBodyOdd).latest ≠
      ((Os.getOsVersionsPostProcess osBodyOdd).versions).headD "" := by
  decide

/-- Claim **C4 (amended)**: the supported-versions result has the fetched list
sorted descending by semver precedence, `recommended` equal to the first
element after excluding pre-release and development-tagged versions (null
if none remain), `default` equal to `recommended` when non-null and to
`latest` otherwise — while `latest` is the fetched body's `latest` field
passed through unchanged rather than recomputed from the sorted list. -/
theorem c4_supported_versions_shape (body : Os.OsVersionsBody)
    (hne : "" ∉ body.versions) :
    (Os.getOsVersionsPostProcess body).latest = body.latest ∧
    ((Os.getOsVersionsPostProcess body).versions).Perm body.versions ∧
    List.Sorted Os.verGE (Os.getOsVersionsPostProcess body).versions ∧
    (Os.getOsVersionsPostProcess body).dflt =
      ((Os.getOsVersionsPostProcess body).recommended).getD body.latest ∧
    (Os.getOsVersionsPostProcess body).recommended =
      Os.specRecommended (Os.getOsVersionsPostProcess body).versions := by
  haveI : IsTotal String Os.verGE :=
    ⟨fun a b => (keyLE_total (Os.verKey b) (Os.verKey a)).imp id id⟩
  haveI : IsTrans String Os.verGE :=
    ⟨fun _ _ _ hab hbc => keyLE_trans _ _ _ hbc hab⟩
  refine ⟨rfl, List.perm_insertionSort _ _, List.sorted_insertionSort _ _, rfl, ?_⟩
  simp only [Os.getOsVersionsPostProcess, Os.specRecommended, Os.sortVersionsDesc]
  rcases hfl : (List.insertionSort Os.verGE body.versions).filter
      (fun v => !(Os.isPrerelease v || Os.isDevelopmentVersion v)) with _ | ⟨s, t⟩
  · simp [hfl]
  · have hs : s ∈ body.versions := by
      have h1 : s ∈ (List.insertionSort Os.verGE body.versions).filter
          (fun v => !(Os.isPrerelease v || Os.isDevelopmentVersion v)) := by
        rw [hfl]; exact List.mem_cons_self s t
      have h2 := List.mem_of_mem_filter h1
      exact (List.mem_insertionSort Os.verGE).mp h2
    have hne2 : (s == "") = false :=
      beq_eq_false_iff_ne.mpr (fun he => hne (he ▸ hs))
    simp [hfl, hne2]

/-- Witness for C4 at the claim's worked example
`['2.0.0','2.1.0-beta','2.1.0']`: the pre-release is excluded, the rest is
sorted descending, `recommended = 2.1.0`, `default = recommended`. -/
theorem c4_witness :
    "" ∉ osBodySample.versions ∧
    (Os.getOsVersionsPostProcess osBodySample).recommended =
      Os.specRecommended (Os.getOsVersionsPostProcess osBodySample).versions ∧
    (Os.getOsVersionsPostProcess osBodySample).versions =
      ["2.1.0", "2.1.0-beta", "2.0.0"] ∧
    (Os.getOsVersionsPostProcess osBodySample).recommended = some "2.1.0" ∧
    (Os.getOsVersionsPostProcess osBodySample).dflt = "2.1.0" :=
  ⟨by decide, (c4_supported_versions_shape osBodySample (by decide)).2.2.2.2,
    by decide, by decide, by decide⟩

/-- Counterexample to C9 as stated: `'latest'` conforms to the version
pattern under no reading (neither the strict anchored pattern nor the
unanchored regex), yet `normalizeVersion` returns it unchanged instead of
throwing a format error. -/
theorem c9_counterexample :
    Os.strictResinos "latest" = false ∧ Os.resinosTest "latest" = false ∧
    Os.normalizeVersion "latest" = .ok "latest" := by
  decide

theorem coreMatchAt_of_strictAt (cs : List Char) (h : Os.strictAt cs = true) :
    Os.coreMatchAt cs = true := by
  unfold Os.strictAt at h
  unfold Os.coreMatchAt
  split at h
  · rename_i rest heq
    rw [heq]
    rfl
  · cases h

/-- Claim **C9 (amended)**: `normalizeVersion` rejects the empty string and
passes the literal `'latest'` through unvalidated; for every other string
it strips a single leading `v` and accepts the remainder exactly when the
(unanchored) version regex matches somewhere inside it, throwing a
synchronous format error otherwise; every remainder conforming to the
spec's strict anchored `major.minor.patch[.revN][-suffix or +suffix]`
pattern is accepted. -/
theorem c9_normalizeVersion_amended (v : String) (h1 : v ≠ "") (h2 : v ≠ "latest") :
    Os.normalizeVersion v =
      (if Os.resinosTest (Os.stripLeadingV v) then .ok (Os.stripLeadingV v)
       else .error ("Invalid semver version: " ++ v)) ∧
    ∀ w, Os.strictResinos w = true → Os.resinosTest w = true := by
  constructor
  · have hb1 : (v == "") = false := beq_eq_false_iff_ne.mpr h1
    have hb2 : (v == "latest") = false := beq_eq_false_iff_ne.mpr h2
    simp [Os.normalizeVersion, hb1, hb2]
  · intro w hw
    unfold Os.strictResinos at hw
    unfold Os.resinosTest
    split at hw
    · rename_i rest heq
      rw [heq]
      unfold Os.resinosTestAux
      simp [coreMatchAt_of_strictAt rest hw]
    · rcases hd : w.data with _ | ⟨c, cs⟩
      · rw [hd] at hw
        simp [Os.strictAt, Os.digits1] at hw
      · rw [hd] at hw
        unfold Os.resinosTestAux
        simp [coreMatchAt_of_strictAt _ hw]

/-- Witness for C9: `v2.0.0` normalizes to `2.0.0` and `not-a-version`
fails with the format error. -/
theorem c9_witness :
    Os.normalizeVersion "v2.0.0" = .ok "2.0.0" ∧
    Os.normalizeVersion "not-a-version" =
      .error "Invalid semver version: not-a-version" := by
  constructor
  · rw [(c9_normalizeVersion_amended "v2.0.0" (by decide) (by decide)).1]
    decide
  · rw [(c9_normalizeVersion_amended "not-a-version" (by decide) (by decide)).1]
    decide

end BalenaSdk
